import Mathlib

set_option maxHeartbeats 1000000

/-!
Verification of the persona-orchestration core of the Agentic_contention
repository, shallowly embedded in Lean 4.

The repository holds three near-duplicate Python scripts (`Agent_Camus.py`,
`Camus_proof.py`, `camus_agent.py`), each defining a transformation function
`absurdist_improvement(message_text, mode)` that composes an ordered list of
prompt "tasks" bound to named personas, hands them to an external
orchestration engine (`crew.kickoff()`), and normalizes the result.

Embedding notes:
* Heterogeneous Python runtime values reaching the result extractor are
  modelled by the inductive `PyValue`; `str(v)` is `pyStrOf`, `.strip()` is
  `String.trim`.
* The process-wide random source consumed by `random.sample` is modelled as a
  pure stream `Nat → Nat` of draws; `pySample` mirrors `random.sample`'s
  contract: it rejects a negative or oversized request with a `ValueError`
  and otherwise draws the requested number of distinct elements without
  replacement, consuming the stream.  Python exceptions are modelled with
  `Except String`.
* The orchestration engine is an external collaborator and is passed in as a
  function `kickoff : List Task → Except String PyValue` (an `Except.error`
  models the engine raising).
-/

/-- A runtime value returned by the orchestration engine: `None`, a plain
string, an object carrying optional `output` / `text` attributes, or a
dict-like mapping; non-string shapes carry their `str()` representation. -/
inductive PyValue where
  | pyNone : PyValue
  | pyStr : String → PyValue
  | pyObj : Option PyValue → Option PyValue → String → PyValue
  | pyDict : List (String × PyValue) → String → PyValue

/-- Python `str(v)` on a `PyValue`. -/
def pyStrOf : PyValue → String
  | .pyNone => "None"
  | .pyStr s => s
  | .pyObj _ _ r => r
  | .pyDict _ r => r

/-- An attribute or dict value passes Python's `isinstance(v, str)` check
exactly when it is a plain string; then return it. -/
def asPyString : Option PyValue → Option String
  | some (.pyStr s) => some s
  | _ => none

/-- Dict access `key in result and isinstance(result[key], str)`. -/
def lookupStringKey (entries : List (String × PyValue)) (key : String) :
    Option String :=
  asPyString (entries.lookup key)

/-- One draw of `k` distinct elements without replacement from `pool`,
consuming the pure random stream `src`: the `i`-th remaining element is
picked at each step (index `src 0 % remaining`).  Stops early only on an
exhausted pool, which the caller rules out. -/
def sampleAux : (Nat → Nat) → List String → Nat → List String
  | _, _, 0 => []
  | _, [], _ + 1 => []
  | src, p :: ps, n + 1 =>
    let i := src 0 % (p :: ps).length
    (p :: ps).getD i "" :: sampleAux (fun j => src (j + 1)) ((p :: ps).eraseIdx i) n

/-- Model of Python's `random.sample(pool, k)` on the global random source:
raises `ValueError` unless `0 ≤ k ≤ len(pool)`, otherwise returns `k`
distinct elements drawn without replacement. -/
def pySample (src : Nat → Nat) (pool : List String) (k : Int) :
    Except String (List String) :=
  if k < 0 ∨ (pool.length : Int) < k then
    .error "ValueError: Sample larger than population or is negative"
  else
    .ok (sampleAux src pool k.toNat)

namespace AgentCamus

/-- One CrewAI `Task` from `Agent_Camus.py`: a prompt, an expected-output
hint, and the pool key of the owning agent. -/
structure Task where
  description : String
  expected_output : String
  agentKey : String
deriving DecidableEq

/-- The keys of `AGENT_POOL` in insertion order (`build_agent_pool`). -/
def AGENT_POOL_KEYS : List String :=
  ["camus", "plath", "synth", "kafka", "dada", "ironist", "mystic"]

/-- The `role` field of each agent in `AGENT_POOL`. -/
def roleOf (key : String) : String :=
  if key = "camus" then "Existential Philosopher"
  else if key = "plath" then "Poetic Melancholic"
  else if key = "synth" then "Absurdist Synthesizer"
  else if key = "kafka" then "Kafkaesque Bureaucrat"
  else if key = "dada" then "Dadaist Trickster"
  else if key = "ironist" then "Ironist Mediator"
  else if key = "mystic" then "Mystic Nihilist"
  else ""

/-- `format_task_description` (Agent_Camus.py line 100). -/
def format_task_description (role_label message_text : String) : String :=
  "Reframe this message in the style of " ++ role_label ++ ":\n\n" ++ message_text

/-- `extract_output` (Agent_Camus.py lines 103-124): defensive extraction of
a display string from the kickoff result. -/
def extract_output : PyValue → String
  | .pyNone => ""
  | .pyStr s => s.trim
  | .pyObj outputAttr textAttr reprStr =>
    match asPyString outputAttr with
    | some s => s.trim
    | none =>
      match asPyString textAttr with
      | some s => s.trim
      | none => reprStr.trim
  | .pyDict entries reprStr =>
    match lookupStringKey entries "output" with
    | some s => s.trim
    | none =>
      match lookupStringKey entries "result" with
      | some s => s.trim
      | none =>
        match lookupStringKey entries "text" with
        | some s => s.trim
        | none =>
          match lookupStringKey entries "answer" with
          | some s => s.trim
          | none => reprStr.trim

/-- Python's `str.lower()` (on the ASCII range the source's mode strings
live in): lower-case every character.  Defined by a structural map over the
character list so that it evaluates. -/
def pyLower (s : String) : String :=
  String.mk (s.data.map Char.toLower)

/-- `mode = (mode or "blend").lower()` (line 127): `None` and the empty
string fall back to `"blend"`, everything else is lower-cased. -/
def normalizeMode : Option String → String
  | none => "blend"
  | some s => if s = "" then "blend" else pyLower s

/-- `extras_pool` (line 150): pool keys minus the two base personas and the
synthesizer. -/
def extras_pool : List String :=
  AGENT_POOL_KEYS.filter (fun k => !(["camus", "plath", "synth"].contains k))

/-- The camus task appended when `mode in ("camus", "blend")`. -/
def camusTask (message_text : String) : Task :=
  ⟨format_task_description (roleOf "camus") message_text,
   "A philosophical reinterpretation emphasizing futility, absurdity, or revolt.",
   "camus"⟩

/-- The plath task appended when `mode in ("plath", "blend")`. -/
def plathTask (message_text : String) : Task :=
  ⟨format_task_description (roleOf "plath") message_text,
   "A lyrical, melancholic reinterpretation with vivid imagery.",
   "plath"⟩

/-- The task appended for one randomly drawn extra persona. -/
def extraTask (message_text extra_key : String) : Task :=
  ⟨format_task_description (roleOf extra_key) message_text,
   "A stylistic reinterpretation expanding the absurdist dimension.",
   extra_key⟩

/-- The fixed prompt of the final synthesis task (lines 164-165); it does
not interpolate the message. -/
def synthDescription : String :=
  "Synthesize all reinterpretations into one unified reflection. " ++
  "Blend philosophy, poetry, surrealism, irony, and mysticism."

/-- The final synthesis task (lines 163-168). -/
def synthTask : Task :=
  ⟨synthDescription,
   "A single absurdist-philosophical response that feels layered, existential, poetic, surreal, and darkly humorous.",
   "synth"⟩

/-- The two base appends (lines 132-146) as a pair of the task list and the
`selected_keys` list, driven by the already-normalized mode. -/
def baseTasks (message_text mode : String) : List Task × List String :=
  ((if mode = "camus" ∨ mode = "blend" then [camusTask message_text] else []) ++
   (if mode = "plath" ∨ mode = "blend" then [plathTask message_text] else []),
   (if mode = "camus" ∨ mode = "blend" then ["camus"] else []) ++
   (if mode = "plath" ∨ mode = "blend" then ["plath"] else []))

/-- Task composition of `absurdist_improvement` (lines 128-169) on the
normalized mode: the base tasks, then for blend mode the sampled extras
(`k = min(EXTRA_AGENT_COUNT, len(extras_pool))`, a `random.sample` that can
raise) and the synthesis task.  The sampling happens before the `try`
block, so its `ValueError` escapes as an error. -/
def composeTasks (src : Nat → Nat) (extraAgentCount : Int)
    (message_text mode : String) :
    Except String (List Task × List String) :=
  if mode = "blend" then
    match pySample src extras_pool (min extraAgentCount (extras_pool.length : Int)) with
    | .error e => .error e
    | .ok extras =>
      .ok ((baseTasks message_text mode).1 ++
             extras.map (extraTask message_text) ++ [synthTask],
           (baseTasks message_text mode).2 ++ extras ++ ["synth"])
  else
    .ok (baseTasks message_text mode)

/-- The composed task sequence and selected keys of
`absurdist_improvement(message_text, mode)` (Agent_Camus.py lines 126-169),
with the mode argument modelled as `Option String` (`none` = Python
`None`). -/
def absurdist_tasks (src : Nat → Nat) (extraAgentCount : Int)
    (message_text : String) (modeArg : Option String) :
    Except String (List Task × List String) :=
  composeTasks src extraAgentCount message_text (normalizeMode modeArg)

/-- Full `absurdist_improvement` (lines 126-184): compose the tasks, run the
orchestration engine inside `try`, extract the output (`out or ""`), and on
any engine exception return the interpolated error string (line 184). -/
def absurdist_improvement (src : Nat → Nat) (extraAgentCount : Int)
    (kickoff : List Task → Except String PyValue)
    (message_text : String) (modeArg : Option String) :
    Except String String :=
  match absurdist_tasks src extraAgentCount message_text modeArg with
  | .error e => .error e
  | .ok (tasks, _) =>
    match kickoff tasks with
    | .ok raw =>
      let out := extract_output raw
      .ok (if out = "" then "" else out)
    | .error exc =>
      .ok ("(error) Something went wrong transforming the message: " ++ exc)

end AgentCamus

namespace CamusProof

/-- One CrewAI `Task` from `Camus_proof.py`: a prompt, an expected-output
hint, and the role of the owning agent (agents are locals here, identified
by their unique role strings). -/
structure PTask where
  description : String
  expected_output : String
  agentRole : String
deriving DecidableEq

/-- The roles of the four extended agents sampled for blend mode
(Camus_proof.py line 119), in the list order of the `random.sample` call. -/
def extendedRoles : List String :=
  ["Kafkaesque Bureaucrat", "Dadaist Trickster", "Ironist Mediator", "Mystic Nihilist"]

/-- The fixed prompt of the final synthesis task (Camus_proof.py lines
130-131). -/
def synthDescriptionP : String :=
  "Synthesize all reinterpretations into one unified reflection. " ++
  "Blend philosophy, poetry, surrealism, irony, and mysticism."

/-- Task composition of `absurdist_improvement` in Camus_proof.py (lines
97-135).  The mode is used verbatim (no `or "blend"` and no lower-casing),
and the blend extras are always a 2-of-4 sample, which cannot raise. -/
def proof_tasks (src : Nat → Nat) (message_text mode : String) : List PTask :=
  (if mode = "camus" ∨ mode = "blend" then
     [⟨"Reframe this message with Camusian absurdism:\n" ++ message_text,
       "A philosophical reinterpretation emphasizing futility, absurdity, or revolt.",
       "Existential Philosopher"⟩]
   else []) ++
  (if mode = "plath" ∨ mode = "blend" then
     [⟨"Reframe this message in Plath\x27s dark poetic style:\n" ++ message_text,
       "A lyrical, melancholic reinterpretation with vivid imagery.",
       "Poetic Melancholic"⟩]
   else []) ++
  (if mode = "blend" then
     (sampleAux src extendedRoles 2).map (fun role =>
       ⟨"Reframe this message in the style of " ++ role ++ ":\n" ++ message_text,
        "A stylistic reinterpretation expanding the absurdist dimension.",
        role⟩) ++
     [⟨synthDescriptionP,
       "A single absurdist-philosophical response that feels layered, existential, poetic, surreal, and darkly humorous.",
       "Absurdist Synthesizer"⟩]
   else [])

/-- `absurdist_improvement` of Camus_proof.py (lines 84-148): the whole body
sits inside `try`, the result is `str(result).strip()`, and any exception is
replaced by the fixed Sisyphus string (line 148, an f-string with no
interpolated fields). -/
def proof_improvement (src : Nat → Nat)
    (kickoff : List PTask → Except String PyValue)
    (message_text mode : String) : String :=
  match kickoff (proof_tasks src message_text mode) with
  | .ok raw => (pyStrOf raw).trim
  | .error _ => "Like Sisyphus, your words roll endlessly toward the silence of the void."

end CamusProof

namespace CamusAgent

/-- One CrewAI `Task` from `camus_agent.py`. -/
structure ATask where
  description : String
  expected_output : String
  agentRole : String
deriving DecidableEq

/-- Task composition of `absurdist_improvement` in camus_agent.py (lines
44-71): no extras, only the two base tasks and (for blend) a synthesis
task whose prompt is fixed. -/
def agent_tasks (message_text mode : String) : List ATask :=
  (if mode = "camus" ∨ mode = "blend" then
     [⟨"Reframe this message with Camusian absurdism:\n" ++ message_text,
       "A philosophical reinterpretation emphasizing futility, absurdity, or revolt.",
       "Existential Philosopher"⟩]
   else []) ++
  (if mode = "plath" ∨ mode = "blend" then
     [⟨"Reframe this message in Plath’s dark poetic style:\n" ++ message_text,
       "A lyrical, melancholic reinterpretation with vivid imagery.",
       "Poetic Melancholic"⟩]
   else []) ++
  (if mode = "blend" then
     [⟨"Synthesize the above reinterpretations into one unified reflection. " ++
         "Balance Camus’ clarity with Plath’s imagery.",
       "A single absurdist-philosophical response that feels both existential and poetic.",
       "Absurdist Synthesizer"⟩]
   else [])

/-- `absurdist_improvement` of camus_agent.py (lines 44-84): whole body in
`try`; any exception yields the Sisyphus fallback that interpolates the
message (line 84). -/
def agent_improvement (kickoff : List ATask → Except String PyValue)
    (message_text mode : String) : String :=
  match kickoff (agent_tasks message_text mode) with
  | .ok raw => (pyStrOf raw).trim
  | .error _ =>
    "Like Sisyphus, " ++ message_text ++ " rolls endlessly toward the silence of the void."

end CamusAgent

/-- The all-zero random stream, used for concrete runs. -/
def srcZero : Nat → Nat := fun _ => 0

deriving instance DecidableEq for Except

/-- `leadsWith needle hay` is true when `needle` is an initial segment of
`hay` (character-list level). -/
def leadsWith : List Char → List Char → Bool
  | [], _ => true
  | _ :: _, [] => false
  | c :: cs, d :: ds => c == d && leadsWith cs ds

/-- `occursIn needle hay` is true when `needle` occurs contiguously inside
`hay` (character-list level). -/
def occursIn : List Char → List Char → Bool
  | needle, [] => leadsWith needle []
  | needle, hay@(_ :: t) => leadsWith needle hay || occursIn needle t

/-- Substring test on strings: does `needle` occur inside `hay`? -/
def containsSub (hay needle : String) : Bool :=
  occursIn needle.data hay.data

/-- The task sequence composed by `Agent_Camus.py` for message `"m"`,
blend mode, `EXTRA_AGENT_COUNT = 2` and the all-zero random stream. -/
def wTasks : List AgentCamus.Task :=
  [AgentCamus.camusTask "m", AgentCamus.plathTask "m",
   AgentCamus.extraTask "m" "kafka", AgentCamus.extraTask "m" "dada",
   AgentCamus.synthTask]

/-- The matching `selected_keys` list for `wTasks`. -/
def wKeys : List String := ["camus", "plath", "kafka", "dada", "synth"]

theorem leadsWith_self (l : List Char) : leadsWith l l = true := by
  induction l with
  | nil => rfl
  | cons c cs ih => simp [leadsWith, ih]

theorem occursIn_self (l : List Char) : occursIn l l = true := by
  cases l with
  | nil => rfl
  | cons c cs => simp [occursIn, leadsWith_self]

theorem occursIn_append_left (pre l : List Char) :
    occursIn l (pre ++ l) = true := by
  induction pre with
  | nil => simpa using occursIn_self l
  | cons p ps ih =>
    show occursIn l (p :: (ps ++ l)) = true
    simp [occursIn, ih]

/-- Any string of the form `pre ++ msg` contains `msg`. -/
theorem containsSub_append (pre msg : String) :
    containsSub (pre ++ msg) msg = true := by
  unfold containsSub
  rw [String.data_append]
  exact occursIn_append_left pre.data msg.data

theorem getD_mem_of_lt (l : List String) (i : Nat) (h : i < l.length) :
    l.getD i "" ∈ l := by
  rw [List.getD_eq_getElem?_getD, List.getElem?_eq_getElem h]
  exact List.getElem_mem h

theorem getD_not_mem_eraseIdx (l : List String) (i : Nat) (h : i < l.length)
    (hnd : l.Nodup) : l.getD i "" ∉ l.eraseIdx i := by
  rw [List.getD_eq_getElem?_getD, List.getElem?_eq_getElem h]
  intro hmem
  simp only [Option.getD_some] at hmem
  rcases List.mem_eraseIdx_iff_getElem.mp hmem with ⟨j, hj, hne, heq⟩
  exact hne (hnd.getElem_inj_iff.mp heq)

theorem sampleAux_mem : ∀ (n : Nat) (src : Nat → Nat) (pool : List String),
    ∀ x ∈ sampleAux src pool n, x ∈ pool := by
  intro n
  induction n with
  | zero => intro src pool x hx; simp [sampleAux] at hx
  | succ n ih =>
    intro src pool x hx
    cases pool with
    | nil => simp [sampleAux] at hx
    | cons p ps =>
      simp only [sampleAux, List.mem_cons] at hx
      rcases hx with h | h
      · rw [h]
        exact getD_mem_of_lt _ _ (Nat.mod_lt _ (by simp))
      · exact (List.eraseIdx_sublist _ _).subset (ih _ _ x h)

theorem sampleAux_nodup : ∀ (n : Nat) (src : Nat → Nat) (pool : List String),
    pool.Nodup → (sampleAux src pool n).Nodup := by
  intro n
  induction n with
  | zero => intro src pool _; simp [sampleAux]
  | succ n ih =>
    intro src pool hnd
    cases pool with
    | nil => simp [sampleAux]
    | cons p ps =>
      simp only [sampleAux]
      refine List.nodup_cons.mpr ⟨?_, ?_⟩
      · intro hmem
        have hx := sampleAux_mem n _ _ _ hmem
        exact getD_not_mem_eraseIdx (p :: ps) _ (Nat.mod_lt _ (by simp)) hnd hx
      · exact ih _ _ ((List.eraseIdx_sublist _ _).nodup hnd)

theorem sampleAux_length : ∀ (n : Nat) (src : Nat → Nat) (pool : List String),
    n ≤ pool.length → (sampleAux src pool n).length = n := by
  intro n
  induction n with
  | zero => intro src pool _; simp [sampleAux]
  | succ n ih =>
    intro src pool hle
    cases pool with
    | nil => simp at hle
    | cons p ps =>
      have hlt : srcZero 0 % (p :: ps).length < (p :: ps).length := Nat.mod_lt _ (by simp)
      simp only [sampleAux, List.length_cons]
      rw [ih _ _ ?_]
      have hlen := List.length_eraseIdx_of_lt
        (l := p :: ps) (i := src 0 % (p :: ps).length) (Nat.mod_lt _ (by simp))
      simp only [List.length_cons] at hlen hle ⊢
      omega

theorem pySample_ok (src : Nat → Nat) (pool : List String) (k : Int)
    (res : List String) (h : pySample src pool k = .ok res) :
    res = sampleAux src pool k.toNat ∧ 0 ≤ k ∧ k ≤ (pool.length : Int) := by
  unfold pySample at h
  split at h
  · simp at h
  · next hcond =>
    obtain ⟨h1, h2⟩ := not_or.mp hcond
    exact ⟨(Except.ok.inj h).symm, le_of_not_lt h1, le_of_not_lt h2⟩

/-- What a successful `random.sample` over the extras pool guarantees: the
draw is duplicate-free, stays inside the pool, and has the requested size. -/
theorem sample_extras_spec (src : Nat → Nat) (k : Int) (res : List String)
    (h : pySample src AgentCamus.extras_pool k = .ok res) :
    res.Nodup ∧ (∀ x ∈ res, x ∈ AgentCamus.extras_pool) ∧ res.length = k.toNat := by
  obtain ⟨hres, hk0, hkle⟩ := pySample_ok _ _ _ _ h
  subst hres
  refine ⟨sampleAux_nodup _ _ _ (by decide), fun x hx => sampleAux_mem _ _ _ x hx, ?_⟩
  apply sampleAux_length
  have hmono : k.toNat ≤ ((AgentCamus.extras_pool.length : Int)).toNat :=
    Int.toNat_le_toNat hkle
  simpa using hmono

theorem baseTasks_blend (msg : String) :
    AgentCamus.baseTasks msg "blend" =
      ([AgentCamus.camusTask msg, AgentCamus.plathTask msg], ["camus", "plath"]) := by
  simp [AgentCamus.baseTasks]

/-- Shape of every successful blend-mode composition in `Agent_Camus.py`:
two base tasks, the mapped extras, and the synthesis task, with
`selected_keys` mirroring the agents in order. -/
theorem composeTasks_blend (src : Nat → Nat) (ec : Int) (msg : String)
    (tasks : List AgentCamus.Task) (keys : List String)
    (h : AgentCamus.absurdist_tasks src ec msg (some "blend") = .ok (tasks, keys)) :
    ∃ extras,
      pySample src AgentCamus.extras_pool
          (min ec (AgentCamus.extras_pool.length : Int)) = .ok extras ∧
      tasks = [AgentCamus.camusTask msg, AgentCamus.plathTask msg] ++
        extras.map (AgentCamus.extraTask msg) ++ [AgentCamus.synthTask] ∧
      keys = ["camus", "plath"] ++ extras ++ ["synth"] := by
  have h' : AgentCamus.composeTasks src ec msg "blend" = .ok (tasks, keys) := by
    have e2 : AgentCamus.normalizeMode (some "blend") = "blend" := by decide
    rw [← e2]; exact h
  unfold AgentCamus.composeTasks at h'
  rw [if_pos rfl] at h'
  split at h'
  · simp at h'
  · next extras heq =>
    have hinj := Except.ok.inj h'
    rw [Prod.mk.injEq] at hinj
    obtain ⟨ht, hk⟩ := hinj
    refine ⟨extras, heq, ?_, ?_⟩
    · rw [← ht, baseTasks_blend]
    · rw [← hk, baseTasks_blend]

theorem wRun_eq :
    AgentCamus.absurdist_tasks srcZero 2 "m" (some "blend") = .ok (wTasks, wKeys) := by
  decide

/-- C1 counterexample: with an unrecognized mode string (`"nonsense"`) the
composed task sequence is empty, while mode `"blend"` composes five tasks —
so an unrecognized mode is NOT treated like `"blend"` as the claim states. -/
theorem c1_counterexample :
    AgentCamus.absurdist_tasks srcZero 2 "Hello" (some "nonsense") = .ok ([], []) ∧
    AgentCamus.absurdist_tasks srcZero 2 "Hello" (some "nonsense") ≠
      AgentCamus.absurdist_tasks srcZero 2 "Hello" (some "blend") := by
  refine ⟨by decide, ?_⟩
  intro h
  have h2 := congrArg (fun r => r.toOption.map (fun p => p.2.length)) h
  exact absurd h2 (by decide)

/-- C1 amended: an unrecognized mode string selects no personas at all
rather than falling back to blend: in `Agent_Camus.py` a non-empty mode
whose lower-casing is none of `"camus"`, `"plath"`, `"blend"` composes the
empty task sequence (only `None` and the empty string fall back to blend),
and in `Camus_proof.py` any mode other than those three composes the empty
task sequence. -/
theorem c1_amended_unrecognized (src : Nat → Nat) (ec : Int)
    (msg s mode2 : String) (hne : s ≠ "")
    (h1 : AgentCamus.pyLower s ≠ "camus")
    (h2 : AgentCamus.pyLower s ≠ "plath")
    (h3 : AgentCamus.pyLower s ≠ "blend")
    (h4 : mode2 ≠ "camus") (h5 : mode2 ≠ "plath") (h6 : mode2 ≠ "blend") :
    AgentCamus.absurdist_tasks src ec msg (some s) = .ok ([], []) ∧
    CamusProof.proof_tasks src msg mode2 = [] := by
  constructor
  · unfold AgentCamus.absurdist_tasks
    have hnorm : AgentCamus.normalizeMode (some s) = AgentCamus.pyLower s := by
      simp [AgentCamus.normalizeMode, hne]
    rw [hnorm]
    simp [AgentCamus.composeTasks, AgentCamus.baseTasks, h1, h2, h3]
  · simp [CamusProof.proof_tasks, h4, h5, h6]

/-- Witness for the amended C1 at the concrete unrecognized mode
`"nonsense"`. -/
theorem c1_amended_witness :
    AgentCamus.absurdist_tasks srcZero 2 "Hello" (some "nonsense") = .ok ([], []) ∧
    CamusProof.proof_tasks srcZero "Hello" "nonsense" = [] :=
  c1_amended_unrecognized srcZero 2 "Hello" "nonsense" "nonsense"
    (by decide) (by decide) (by decide) (by decide)
    (by decide) (by decide) (by decide)

/-- C2 counterexample: in `Agent_Camus.py` the string returned after a
kickoff exception interpolates the exception text, so two different
exceptions yield two different fallback strings — the fallback is not one
fixed string as the claim states. -/
theorem c2_counterexample :
    AgentCamus.absurdist_improvement srcZero 2 (fun _ => .error "E1") "Hello" (some "camus") =
      .ok "(error) Something went wrong transforming the message: E1" ∧
    AgentCamus.absurdist_improvement srcZero 2 (fun _ => .error "E2") "Hello" (some "camus") =
      .ok "(error) Something went wrong transforming the message: E2" ∧
    AgentCamus.absurdist_improvement srcZero 2 (fun _ => .error "E1") "Hello" (some "camus") ≠
      AgentCamus.absurdist_improvement srcZero 2 (fun _ => .error "E2") "Hello" (some "camus") := by
  refine ⟨by decide, by decide, ?_⟩
  intro h
  exact absurd (congrArg Except.toOption h) (by decide)

/-- C2 amended: every kickoff exception is caught and converted to an
in-band fallback string, never propagated; but the fallback is only fixed in
`Camus_proof.py` — `Agent_Camus.py` interpolates the exception text and
`camus_agent.py` interpolates the message. -/
theorem c2_amended_fallbacks (src : Nat → Nat) (ec : Int) (msg : String)
    (modeArg : Option String) (mode2 exc : String)
    (tasks : List AgentCamus.Task) (keys : List String)
    (h : AgentCamus.absurdist_tasks src ec msg modeArg = .ok (tasks, keys)) :
    AgentCamus.absurdist_improvement src ec (fun _ => .error exc) msg modeArg =
      .ok ("(error) Something went wrong transforming the message: " ++ exc) ∧
    CamusProof.proof_improvement src (fun _ => .error exc) msg mode2 =
      "Like Sisyphus, your words roll endlessly toward the silence of the void." ∧
    CamusAgent.agent_improvement (fun _ => .error exc) msg mode2 =
      "Like Sisyphus, " ++ msg ++ " rolls endlessly toward the silence of the void." := by
  refine ⟨?_, rfl, rfl⟩
  unfold AgentCamus.absurdist_improvement
  rw [h]

/-- Witness for the amended C2 at a concrete run and exception. -/
theorem c2_amended_witness :
    AgentCamus.absurdist_improvement srcZero 2 (fun _ => .error "boom") "m" (some "blend") =
      .ok ("(error) Something went wrong transforming the message: " ++ "boom") ∧
    CamusProof.proof_improvement srcZero (fun _ => .error "boom") "m" "blend" =
      "Like Sisyphus, your words roll endlessly toward the silence of the void." :=
  ⟨(c2_amended_fallbacks srcZero 2 "m" (some "blend") "blend" "boom" wTasks wKeys wRun_eq).1,
   (c2_amended_fallbacks srcZero 2 "m" (some "blend") "blend" "boom" wTasks wKeys wRun_eq).2.1⟩

/-- C3 counterexample: with a negative extra-persona count the blend
composition raises (`random.sample` gets a negative `k`); it does not clamp
to zero additional selections. -/
theorem c3_counterexample :
    AgentCamus.absurdist_tasks srcZero (-1) "Hello" (some "blend") =
      .error "ValueError: Sample larger than population or is negative" ∧
    (AgentCamus.absurdist_tasks srcZero (-1) "Hello" (some "blend")).toOption = none := by
  exact ⟨by decide, by decide⟩

/-- C3 amended: a negative configured extra-persona count makes the blend
composition raise `ValueError` from `random.sample` (the `min` with the pool
size stays negative), and the sampling happens before the `try` block, so
the error propagates instead of being clamped to zero selections. -/
theorem c3_amended_negative_raises (src : Nat → Nat) (msg : String) (ec : Int)
    (h : ec < 0) :
    AgentCamus.absurdist_tasks src ec msg (some "blend") =
      .error "ValueError: Sample larger than population or is negative" := by
  unfold AgentCamus.absurdist_tasks
  have e2 : AgentCamus.normalizeMode (some "blend") = "blend" := by decide
  rw [e2]
  unfold AgentCamus.composeTasks
  rw [if_pos rfl]
  have hk : min ec (AgentCamus.extras_pool.length : Int) < 0 :=
    lt_of_le_of_lt (min_le_left _ _) h
  unfold pySample
  rw [if_pos (Or.inl hk)]

/-- Witness for the amended C3 at the concrete count `-1`. -/
theorem c3_amended_witness :
    AgentCamus.absurdist_tasks srcZero (-1) "m" (some "blend") =
      .error "ValueError: Sample larger than population or is negative" :=
  c3_amended_negative_raises srcZero "m" (-1) (by decide)

/-- C4: every successfully composed blend run has the synthesizer's task
last and exactly `2 + min(extra_count, pool size) + 1` tasks. -/
theorem c4_blend_shape (src : Nat → Nat) (ec : Int) (msg : String)
    (tasks : List AgentCamus.Task) (keys : List String)
    (h : AgentCamus.absurdist_tasks src ec msg (some "blend") = .ok (tasks, keys)) :
    tasks.getLast?.map AgentCamus.Task.agentKey = some "synth" ∧
    tasks.length = 2 + (min ec (AgentCamus.extras_pool.length : Int)).toNat + 1 := by
  obtain ⟨extras, hs, ht, hk⟩ := composeTasks_blend src ec msg tasks keys h
  obtain ⟨hnd, hmem, hlen⟩ := sample_extras_spec src _ extras hs
  subst ht
  constructor
  · rw [List.getLast?_concat]
    rfl
  · simp only [List.length_append, List.length_map, List.length_cons,
      List.length_nil, hlen]

/-- Witness for C4 at a concrete blend run with `extra_count = 2`. -/
theorem c4_witness :
    wTasks.getLast?.map AgentCamus.Task.agentKey = some "synth" ∧
    wTasks.length = 2 + (min 2 (AgentCamus.extras_pool.length : Int)).toNat + 1 :=
  c4_blend_shape srcZero 2 "m" wTasks wKeys wRun_eq

/-- C5: in every successfully composed blend run, the extra personas (the
selected keys strictly between the two base keys and the final synthesizer
key) are pairwise distinct and none of them is `camus`, `plath` or
`synth`. -/
theorem c5_extras_distinct (src : Nat → Nat) (ec : Int) (msg : String)
    (tasks : List AgentCamus.Task) (keys : List String)
    (h : AgentCamus.absurdist_tasks src ec msg (some "blend") = .ok (tasks, keys)) :
    keys = ["camus", "plath"] ++ (keys.drop 2).dropLast ++ ["synth"] ∧
    ((keys.drop 2).dropLast).Nodup ∧
    ∀ x ∈ (keys.drop 2).dropLast, x ≠ "camus" ∧ x ≠ "plath" ∧ x ≠ "synth" := by
  obtain ⟨extras, hs, ht, hk⟩ := composeTasks_blend src ec msg tasks keys h
  obtain ⟨hnd, hmem, hlen⟩ := sample_extras_spec src _ extras hs
  subst hk
  have hd : (((["camus", "plath"] ++ extras ++ ["synth"]).drop 2)).dropLast = extras := by
    simp [List.append_assoc]
  rw [hd]
  refine ⟨rfl, hnd, fun x hx => ?_⟩
  have hxp := hmem x hx
  have hp : AgentCamus.extras_pool = ["kafka", "dada", "ironist", "mystic"] := by decide
  rw [hp] at hxp
  simp only [List.mem_cons, List.not_mem_nil, or_false] at hxp
  rcases hxp with h1 | h1 | h1 | h1 <;> subst h1 <;>
    exact ⟨by decide, by decide, by decide⟩

/-- Witness for C5 at a concrete blend run. -/
theorem c5_witness :
    wKeys = ["camus", "plath"] ++ (wKeys.drop 2).dropLast ++ ["synth"] ∧
    ((wKeys.drop 2).dropLast).Nodup :=
  ⟨(c5_extras_distinct srcZero 2 "m" wTasks wKeys wRun_eq).1,
   (c5_extras_distinct srcZero 2 "m" wTasks wKeys wRun_eq).2.1⟩

/-- C6: the blend extra-persona selection is a pure function of the random
source state, the candidate pool and the requested count, so two
invocations from the same seeded state with the same pool and count select
identical extras. -/
theorem c6_sample_deterministic (src1 src2 : Nat → Nat)
    (pool1 pool2 : List String) (k1 k2 : Int)
    (h1 : src1 = src2) (h2 : pool1 = pool2) (h3 : k1 = k2) :
    pySample src1 pool1 k1 = pySample src2 pool2 k2 ∧
    ∀ ec msg, AgentCamus.absurdist_tasks src1 ec msg (some "blend") =
      AgentCamus.absurdist_tasks src2 ec msg (some "blend") := by
  subst h1; subst h2; subst h3
  exact ⟨rfl, fun _ _ => rfl⟩

/-- Witness for C6 at a concrete state, pool and count. -/
theorem c6_witness :
    srcZero = srcZero ∧
    pySample srcZero AgentCamus.extras_pool 2 =
      pySample srcZero AgentCamus.extras_pool 2 :=
  ⟨rfl,
   (c6_sample_deterministic srcZero srcZero AgentCamus.extras_pool
      AgentCamus.extras_pool 2 2 rfl rfl rfl).1⟩

/-- C7: the result extractor maps `None` to the empty string, a plain
string to itself trimmed of surrounding whitespace, and any value of an
unrecognized shape — any object whose `output`/`text` attributes are absent
or not plain strings, and any mapping none of whose probed keys
(`output`, `result`, `text`, `answer`) holds a plain string — to its
`str()` representation trimmed. -/
theorem c7_extract_shapes :
    AgentCamus.extract_output .pyNone = "" ∧
    (∀ s, AgentCamus.extract_output (.pyStr s) = s.trim) ∧
    (∀ o t r, asPyString o = none → asPyString t = none →
      AgentCamus.extract_output (.pyObj o t r) = r.trim) ∧
    (∀ entries r, lookupStringKey entries "output" = none →
      lookupStringKey entries "result" = none →
      lookupStringKey entries "text" = none →
      lookupStringKey entries "answer" = none →
      AgentCamus.extract_output (.pyDict entries r) = r.trim) := by
  refine ⟨rfl, fun _ => rfl, ?_, ?_⟩
  · intro o t r h1 h2
    simp [AgentCamus.extract_output, h1, h2]
  · intro entries r h1 h2 h3 h4
    simp [AgentCamus.extract_output, h1, h2, h3, h4]

/-- Witness for C7 at inhabited unrecognized shapes: an object whose
`output`/`text` attributes are present but not strings, and a nonempty
mapping whose probed `output` key holds a non-string while its only string
value sits under an unprobed key. -/
theorem c7_witness :
    AgentCamus.extract_output
        (.pyObj (some .pyNone) (some (.pyDict [] " text ")) " obj repr ") =
      " obj repr ".trim ∧
    AgentCamus.extract_output
        (.pyDict [("output", .pyNone), ("status", .pyStr "ok")] " dict repr ") =
      " dict repr ".trim :=
  ⟨c7_extract_shapes.2.2.1 (some .pyNone) (some (.pyDict [] " text ")) " obj repr "
     (by decide) (by decide),
   c7_extract_shapes.2.2.2 [("output", .pyNone), ("status", .pyStr "ok")] " dict repr "
     (by decide) (by decide) (by decide) (by decide)⟩

/-- Every description built by `format_task_description` embeds the
message (the message is a literal suffix of the prompt). -/
theorem format_description_contains (role msg : String) :
    containsSub (AgentCamus.format_task_description role msg) msg = true :=
  containsSub_append _ msg

/-- C8 counterexample: for the input message `"poetry"` the final synthesis
prompt DOES contain the message, because `"poetry"` happens to occur in the
fixed synthesis instruction — refuting the unrestricted claim. -/
theorem c8_counterexample :
    ((AgentCamus.absurdist_tasks srcZero 2 "poetry" (some "blend")).toOption.bind
        (fun p => p.1.getLast?)).map
      (fun t => containsSub t.description "poetry") = some true := by
  decide

/-- C8 amended: in every successfully composed blend run the last task's
prompt is the fixed synthesis instruction, which is independent of the
message (so it contains the message only when the message happens to occur
inside that fixed text, as `"poetry"` does), while every earlier task's
prompt embeds the message. -/
theorem c8_amended_synth_prompt (src : Nat → Nat) (ec : Int) (msg : String)
    (tasks : List AgentCamus.Task) (keys : List String)
    (h : AgentCamus.absurdist_tasks src ec msg (some "blend") = .ok (tasks, keys)) :
    tasks.getLast?.map AgentCamus.Task.description = some AgentCamus.synthDescription ∧
    (∀ t ∈ tasks.dropLast, containsSub t.description msg = true) ∧
    (containsSub AgentCamus.synthDescription msg = false →
      tasks.getLast?.map (fun t => containsSub t.description msg) = some false) := by
  obtain ⟨extras, hs, ht, hk⟩ := composeTasks_blend src ec msg tasks keys h
  subst ht
  refine ⟨?_, ?_, ?_⟩
  · rw [List.getLast?_concat]
    rfl
  · rw [List.dropLast_concat]
    intro t htmem
    rcases List.mem_append.mp htmem with h2 | h2
    · simp only [List.mem_cons, List.not_mem_nil, or_false] at h2
      rcases h2 with h2 | h2 <;> subst h2 <;> exact format_description_contains _ _
    · obtain ⟨key, hkey, hteq⟩ := List.mem_map.mp h2
      subst hteq
      exact format_description_contains _ _
  · intro hf
    rw [List.getLast?_concat]
    simp only [Option.map_some']
    rw [show AgentCamus.synthTask.description = AgentCamus.synthDescription from rfl, hf]

/-- Witness for the amended C8 at a concrete blend run. -/
theorem c8_amended_witness :
    wTasks.getLast?.map AgentCamus.Task.description = some AgentCamus.synthDescription :=
  (c8_amended_synth_prompt srcZero 2 "m" wTasks wKeys wRun_eq).1

/-- C9: for message `"Why bother?"` in mode `"camus"` the composed sequence
has exactly one task, owned by the `camus` persona, whose prompt contains
the literal substring `"Why bother?"` — for any random state and extra
count, neither of which is consulted in this mode. -/
theorem c9_camus_scenario (src : Nat → Nat) (ec : Int) :
    (AgentCamus.absurdist_tasks src ec "Why bother?" (some "camus")).map
      (fun p => (p.1.length, p.1.map AgentCamus.Task.agentKey,
        p.1.map (fun t => containsSub t.description "Why bother?"))) =
    .ok (1, ["camus"], [true]) := by
  have hbase : AgentCamus.absurdist_tasks src ec "Why bother?" (some "camus") =
      .ok ([AgentCamus.camusTask "Why bother?"], ["camus"]) := rfl
  rw [hbase]
  decide

/-- C10: in `Agent_Camus.py`, a `None` or empty mode behaves exactly like
`"blend"`, and mode matching is case-insensitive: any spelling whose
lower-casing is `"camus"`, `"plath"` or `"blend"` composes the same task
sequence as its lowercase form. -/
theorem c10_mode_normalization (src : Nat → Nat) (ec : Int) (msg s : String)
    (h : AgentCamus.pyLower s = "camus" ∨ AgentCamus.pyLower s = "plath" ∨
         AgentCamus.pyLower s = "blend") :
    AgentCamus.absurdist_tasks src ec msg none =
      AgentCamus.absurdist_tasks src ec msg (some "blend") ∧
    AgentCamus.absurdist_tasks src ec msg (some "") =
      AgentCamus.absurdist_tasks src ec msg (some "blend") ∧
    AgentCamus.absurdist_tasks src ec msg (some s) =
      AgentCamus.absurdist_tasks src ec msg (some (AgentCamus.pyLower s)) := by
  have hne : s ≠ "" := by
    intro he
    rw [he] at h
    rcases h with h | h | h <;> exact absurd h (by decide)
  have hlow : AgentCamus.normalizeMode (some s) = AgentCamus.pyLower s := by
    simp [AgentCamus.normalizeMode, hne]
  have hlow2 : AgentCamus.normalizeMode (some (AgentCamus.pyLower s)) =
      AgentCamus.pyLower s := by
    rcases h with h | h | h <;> rw [h] <;> decide
  have e1 : AgentCamus.normalizeMode none = "blend" := rfl
  have e2 : AgentCamus.normalizeMode (some "blend") = "blend" := by decide
  have e3 : AgentCamus.normalizeMode (some "") = "blend" := by decide
  unfold AgentCamus.absurdist_tasks
  rw [e1, e2, e3, hlow, hlow2]
  exact ⟨rfl, rfl, rfl⟩

/-- Witness for C10 at the concrete mixed-case mode `"CaMuS"`. -/
theorem c10_witness :
    (AgentCamus.pyLower "CaMuS" = "camus" ∨ AgentCamus.pyLower "CaMuS" = "plath" ∨
     AgentCamus.pyLower "CaMuS" = "blend") ∧
    AgentCamus.absurdist_tasks srcZero 2 "m" (some "CaMuS") =
      AgentCamus.absurdist_tasks srcZero 2 "m" (some (AgentCamus.pyLower "CaMuS")) :=
  ⟨Or.inl (by decide),
   (c10_mode_normalization srcZero 2 "m" "CaMuS" (Or.inl (by decide))).2.2⟩
